import Mathlib

/-!
# The MemeService command-line client (`cmd/client/main.go`)

A shallow embedding of `main` of the gRPC demo client.  Everything outside the
process (the dialer, the four RPCs, the file system, the JSON decoder) is an
explicit oracle `Env`; a run of `main` is a pure function of the oracle and of
the parsed command line, and yields the ordered trace of observable effects
together with the exit status of the process.

Go semantics relied upon:
* `log.Fatalf` writes its line to stderr and calls `os.Exit(1)`;
* `os.Exit` terminates the process at once, deferred calls are not run;
* deferred calls run, last registered first, when `main` returns.
-/

namespace MemeClient

/-! ## Data model -/

/-- A Go `error` value as returned by the gRPC stubs, the file system or the
JSON decoder.  `eof` is `io.EOF` (clean end of stream), `deadlineExceeded` is
the error of an RPC step cut short by the context deadline. -/
inductive Err where
  | eof
  | deadlineExceeded
  | other (msg : String)
  deriving DecidableEq, Repr

/-- The getter view of `memespb.Meme`: `GetId`, `GetTitle`, `GetUrl`,
`GetCategory`. -/
structure Meme where
  id : String
  title : String
  url : String
  category : String
  deriving DecidableEq, Repr

/-- The struct `Upload` (lines 31-35): one entry of the JSON batch file. -/
structure Upload where
  title : String
  url : String
  category : String
  deriving DecidableEq, Repr

/-- The message `memespb.MemeUpload` built at line 151. -/
structure MemeUpload where
  title : String
  url : String
  category : String
  deriving DecidableEq, Repr

/-- The getter view of the upload summary: `GetCount`, `GetMessage`. -/
structure UploadSummary where
  count : Int
  message : String
  deriving DecidableEq, Repr

/-- The command line after `flag.Parse()` (lines 56-61): the five flag values
(defaults already applied) and the positional arguments `flag.Args()`. -/
structure Flags where
  addr : String
  category : String
  file : String
  title : String
  url : String
  args : List String
  deriving DecidableEq, Repr

/-- The outside world of one invocation.
* `dial addr` is the error of `grpc.NewClient` (`none`: a connection is obtained);
* `getRandomMeme cat`, `getMemesByCategory cat` are the unary responses;
* `streamMemes cat` is the result of opening the stream and, when it opens, the
  results that the successive `Recv` calls deliver, in order;
* `uploadMemes` is the error of opening the client stream;
* `send k m` is the error of the `k`-th `Send` call (counted from 0) with message `m`;
* `closeAndRecv sent` is the answer to `CloseAndRecv` after the messages `sent`;
* `readFile path` is `os.ReadFile`, `unmarshal data` is `json.Unmarshal` into
  a `[]Upload`. -/
structure Env where
  dial : String → Option Err
  getRandomMeme : String → Except Err Meme
  getMemesByCategory : String → Except Err (List Meme)
  streamMemes : String → Except Err (List (Except Err Meme))
  uploadMemes : Option Err
  send : Nat → MemeUpload → Option Err
  closeAndRecv : List MemeUpload → Except Err UploadSummary
  readFile : String → Except Err String
  unmarshal : String → Except Err (List Upload)

/-- The lines written to standard output, one constructor per `fmt.Printf`
format string of `main`. -/
inductive Line where
  /-- Line 92: `Random meme: id=%s title=%q url=%s category=%q`. -/
  | random (id title url category : String)
  /-- Lines 101 and 119: `%d) id=%s title=%q url=%s category=%q`. -/
  | record (idx : Nat) (id title url category : String)
  /-- Line 121: `Stream completed after %d items`. -/
  | streamDone (count : Nat)
  /-- Line 161: `Uploaded %d memes. Message: %s`. -/
  | uploaded (count : Int) (message : String)
  deriving DecidableEq, Repr

/-- The text of a line; `quote` is the `%q` verb of package `fmt`
(`strconv.Quote`), a library function kept as a parameter. -/
def Line.render (quote : String → String) : Line → String
  | .random id title url category =>
      "Random meme: id=" ++ id ++ " title=" ++ quote title ++ " url=" ++ url
        ++ " category=" ++ quote category ++ "\n"
  | .record idx id title url category =>
      toString idx ++ ") id=" ++ id ++ " title=" ++ quote title ++ " url=" ++ url
        ++ " category=" ++ quote category ++ "\n"
  | .streamDone count => "Stream completed after " ++ toString count ++ " items\n"
  | .uploaded count message =>
      "Uploaded " ++ toString count ++ " memes. Message: " ++ message ++ "\n"

/-- The `log.Fatalf` calls of `main`, one constructor per format string, each
carrying the error that is formatted with `%v`. -/
inductive Fatal where
  /-- Line 74: `dial: %v`. -/
  | dial (e : Err)
  /-- Line 90: `GetRandomMeme: %v`. -/
  | getRandomMeme (e : Err)
  /-- Line 98: `GetMemesByCategory: %v`. -/
  | getMemesByCategory (e : Err)
  /-- Line 109: `StreamMemes: %v`. -/
  | streamMemes (e : Err)
  /-- Line 128: `UploadMemes open: %v`. -/
  | uploadOpen (e : Err)
  /-- Line 137: `read file: %v`. -/
  | readFile (e : Err)
  /-- Line 140: `parse json: %v`. -/
  | parseJson (e : Err)
  /-- Line 146: `upload requires -file or -title and -url`. -/
  | uploadRequires
  /-- Line 152: `send: %v`. -/
  | send (e : Err)
  /-- Line 159: `close: %v`. -/
  | close (e : Err)
  deriving DecidableEq, Repr

/-- The observable effects of a run, in program order. -/
inductive Event where
  /-- The call `usage()`: the help text goes to stderr. -/
  | usage
  /-- A `log.Fatalf` line on stderr (the process then exits with status 1). -/
  | fatal (f : Fatal)
  /-- A `fmt.Printf` line on stdout. -/
  | out (l : Line)
  /-- The call `grpc.NewClient` returned a connection (line 72). -/
  | connAcquired
  /-- The deferred `conn.Close()` ran (line 76). -/
  | connClosed
  /-- The deferred `cancel()` ran (line 82). -/
  | cancel
  /-- One call of `stream.Recv()` (line 113). -/
  | recv
  /-- One call of `st.Send` with the given message (line 151). -/
  | send (m : MemeUpload)
  /-- The call `st.CloseAndRecv()` (line 157). -/
  | closeAndRecv
  deriving DecidableEq, Repr

/-- How the statements of `main` after the `defer`s end: by falling off the end
of `main`, or by `os.Exit(code)` (directly or through `log.Fatalf`). -/
inductive Ending where
  | returned
  | exited (code : Nat)
  deriving DecidableEq, Repr

/-- The result of one invocation: its effects in order and its exit status. -/
structure Run where
  trace : List Event
  exit : Nat
  deriving DecidableEq, Repr

/-! ## The program -/

/-- The call `log.Fatalf(...)`: one line on stderr, then `os.Exit(1)`. -/
def fatalf (f : Fatal) : List Event × Ending :=
  ([Event.fatal f], Ending.exited 1)

/-- The rendering loop of the list case (lines 100-102): `i` is the loop index
of the first element of the remaining slice. -/
def printMemes : List Meme → Nat → List Event
  | [], _ => []
  | m :: ms, i =>
      Event.out (Line.record (i + 1) m.id m.title m.url m.category) :: printMemes ms (i + 1)

/-- The receive loop of the stream case (lines 112-120), started with the
current value of `count`.  It returns the effects of the loop and the final
`count`.  The list holds the results that the service still delivers; once
nothing more is delivered the pending `Recv` is cut short by the context
deadline of line 81 and returns an error, which ends the loop like any other
error.  (`count` is a Go `int`; it is a natural number here, 2^63 receives do
not fit in the five-second deadline.) -/
def recvLoop : List (Except Err Meme) → Nat → List Event × Nat
  | [], count => ([Event.recv], count)
  | Except.error _ :: _, count => ([Event.recv], count)
  | Except.ok m :: rest, count =>
      let r := recvLoop rest (count + 1)
      (Event.recv :: Event.out (Line.record (count + 1) m.id m.title m.url m.category) :: r.1,
        r.2)

/-- The batch build of the upload case (lines 133-147).  On failure the result
holds what is written to stderr before the process exits with status 1. -/
def buildUploads (env : Env) (f : Flags) : Except (List Event) (List Upload) :=
  if f.file ≠ "" then
    match env.readFile f.file with
    | Except.error e => Except.error [Event.fatal (Fatal.readFile e)]
    | Except.ok data =>
        match env.unmarshal data with
        | Except.error e => Except.error [Event.fatal (Fatal.parseJson e)]
        | Except.ok toUpload => Except.ok toUpload
  else if f.title ≠ "" ∧ f.url ≠ "" then
    Except.ok [{ title := f.title, url := f.url, category := f.category }]
  else
    Except.error [Event.usage, Event.fatal Fatal.uploadRequires]

/-- The send loop of the upload case (lines 150-154); `k` is the number of
`Send` calls already made.  It returns the effects of the loop and the error
of the failing `Send`, if one failed. -/
def sendLoop (env : Env) : List Upload → Nat → List Event × Option Err
  | [], _ => ([], none)
  | u :: us, k =>
      let msg : MemeUpload := { title := u.title, url := u.url, category := u.category }
      match env.send k msg with
      | some e => ([Event.send msg], some e)
      | none =>
          let r := sendLoop env us (k + 1)
          (Event.send msg :: r.1, r.2)

/-- The messages handed to `Send` in a trace, in order. -/
def sends : List Event → List MemeUpload
  | [] => []
  | Event.send m :: es => m :: sends es
  | _ :: es => sends es

/-- The lines written to stdout in a trace, in order. -/
def stdout : List Event → List Line
  | [] => []
  | Event.out l :: es => l :: stdout es
  | _ :: es => stdout es

/-- The `switch cmd` of lines 85-167. -/
def dispatch (env : Env) (f : Flags) (cmd : String) : List Event × Ending :=
  if cmd = "random" then
    match env.getRandomMeme f.category with
    | Except.error e => fatalf (Fatal.getRandomMeme e)
    | Except.ok resp =>
        ([Event.out (Line.random resp.id resp.title resp.url resp.category)], Ending.returned)
  else if cmd = "list" then
    match env.getMemesByCategory f.category with
    | Except.error e => fatalf (Fatal.getMemesByCategory e)
    | Except.ok memes => (printMemes memes 0, Ending.returned)
  else if cmd = "stream" then
    match env.streamMemes f.category with
    | Except.error e => fatalf (Fatal.streamMemes e)
    | Except.ok stream =>
        let r := recvLoop stream 0
        (r.1 ++ [Event.out (Line.streamDone r.2)], Ending.returned)
  else if cmd = "upload" then
    match env.uploadMemes with
    | some e => fatalf (Fatal.uploadOpen e)
    | none =>
        match buildUploads env f with
        | Except.error stderr => (stderr, Ending.exited 1)
        | Except.ok toUpload =>
            let r := sendLoop env toUpload 0
            match r.2 with
            | some e => (r.1 ++ (fatalf (Fatal.send e)).1, Ending.exited 1)
            | none =>
                match env.closeAndRecv (sends r.1) with
                | Except.error e =>
                    (r.1 ++ Event.closeAndRecv :: (fatalf (Fatal.close e)).1, Ending.exited 1)
                | Except.ok summary =>
                    (r.1 ++ [Event.closeAndRecv,
                        Event.out (Line.uploaded summary.count summary.message)],
                      Ending.returned)
  else
    ([Event.usage], Ending.exited 2)

/-- The function `main` (lines 54-168).  The two `defer`red calls run, last
registered first, only when the dispatch falls off the end of `main`. -/
def main (env : Env) (f : Flags) : Run :=
  match f.args with
  | [] => { trace := [Event.usage], exit := 2 }
  | cmd :: _ =>
      match env.dial f.addr with
      | some e => { trace := (fatalf (Fatal.dial e)).1, exit := 1 }
      | none =>
          match dispatch env f cmd with
          | (tr, Ending.returned) =>
              { trace := Event.connAcquired :: tr ++ [Event.cancel, Event.connClosed], exit := 0 }
          | (tr, Ending.exited code) =>
              { trace := Event.connAcquired :: tr, exit := code }

/-- The records received before the first receive error, in order. -/
def received : List (Except Err Meme) → List Meme
  | Except.ok m :: rest => m :: received rest
  | _ => []

/-! ## Sample worlds -/

/-- A service where every RPC step fails with the given error and no file
can be read. -/
def failingEnv (e : Err) : Env where
  dial := fun _ => none
  getRandomMeme := fun _ => Except.error e
  getMemesByCategory := fun _ => Except.error e
  streamMemes := fun _ => Except.error e
  uploadMemes := some e
  send := fun _ _ => some e
  closeAndRecv := fun _ => Except.error e
  readFile := fun _ => Except.error e
  unmarshal := fun _ => Except.error e

/-- The two records of the list scenario. -/
def sampleMemes : List Meme :=
  [{ id := "1", title := "X", url := "http://a", category := "funny" },
   { id := "2", title := "Y", url := "http://b", category := "funny" }]

/-- The two entries of the batch file scenario. -/
def sampleBatch : List Upload :=
  [{ title := "a", url := "u1", category := "c" },
   { title := "b", url := "u2", category := "" }]

/-- A well-behaved service: it lists and streams `sampleMemes` and then ends
the stream cleanly, accepts every message, acknowledges exactly the messages
it received, and the file `memes.json` decodes to `sampleBatch`. -/
def okEnv : Env where
  dial := fun _ => none
  getRandomMeme := fun _ => Except.ok { id := "1", title := "X", url := "http://a", category := "funny" }
  getMemesByCategory := fun _ => Except.ok sampleMemes
  streamMemes := fun _ => Except.ok (sampleMemes.map Except.ok ++ [Except.error Err.eof])
  uploadMemes := none
  send := fun _ _ => none
  closeAndRecv := fun sent => Except.ok { count := sent.length, message := "ok" }
  readFile := fun path =>
    if path = "memes.json" then Except.ok "batch" else Except.error (Err.other "no such file")
  unmarshal := fun data =>
    if data = "batch" then Except.ok sampleBatch else Except.error (Err.other "bad json")

/-- The command line `client <cmd>` with every flag at its default. -/
def flagsFor (cmd : String) : Flags where
  addr := "localhost:50051"
  category := ""
  file := ""
  title := ""
  url := ""
  args := [cmd]

/-- The service of `okEnv`, except that the `k`-th `Send` (counted from 0)
fails with `e`. -/
def sendFailEnv (k : Nat) (e : Err) : Env :=
  { okEnv with send := fun j _ => if j = k then some e else none }

/-- The service of `okEnv`, except that `CloseAndRecv` fails with `e`. -/
def closeFailEnv (e : Err) : Env :=
  { okEnv with closeAndRecv := fun _ => Except.error e }

/-- The service of `okEnv`, except that the stream delivers one record and
then nothing: the second `Recv` returns the deadline error, and whatever the
service would deliver afterwards is never asked for. -/
def stalledStreamEnv : Env :=
  { okEnv with
    streamMemes := fun _ =>
      Except.ok [Except.ok { id := "1", title := "X", url := "http://a", category := "funny" },
        Except.error Err.deadlineExceeded,
        Except.ok { id := "2", title := "Y", url := "http://b", category := "funny" }] }

/-- The command line `client -file memes.json upload`. -/
def fileFlags : Flags :=
  { flagsFor "upload" with file := "memes.json" }

/-- The command line `client -title t -url u upload` (empty category). -/
def inlineFlags : Flags :=
  { flagsFor "upload" with title := "t", url := "u" }

/-- The command line `client -file memes.json -title t -url u upload`: both
sources at once. -/
def bothSourcesFlags : Flags :=
  { flagsFor "upload" with file := "memes.json", title := "t", url := "u" }

/-! ## Properties -/

/-- The stdout projection distributes over concatenation of traces. -/
theorem stdout_append (a b : List Event) : stdout (a ++ b) = stdout a ++ stdout b := by
  induction a with
  | nil => rfl
  | cons e es ih => cases e <;> simp [stdout, ih]

/-- The sent-messages projection distributes over concatenation of traces. -/
theorem sends_append (a b : List Event) : sends (a ++ b) = sends a ++ sends b := by
  induction a with
  | nil => rfl
  | cons e es ih => cases e <;> simp [sends, ih]

/-- The list loop emits nothing but stdout lines. -/
theorem printMemes_eq_map (ms : List Meme) (i : Nat) :
    printMemes ms i = (stdout (printMemes ms i)).map Event.out := by
  induction ms generalizing i with
  | nil => rfl
  | cons m ms ih => simp only [printMemes, stdout, List.map_cons]; rw [← ih]

/-- The list loop prints one line per record. -/
theorem stdout_printMemes_length (ms : List Meme) (i : Nat) :
    (stdout (printMemes ms i)).length = ms.length := by
  induction ms generalizing i with
  | nil => rfl
  | cons m ms ih => simp [printMemes, stdout, ih]

/-- The line at position k of the list loop started at index i shows record k with number i + k + 1. -/
theorem stdout_printMemes_get (ms : List Meme) (i k : Nat) :
    (stdout (printMemes ms i))[k]? =
      (ms[k]?).map (fun m => Line.record (i + k + 1) m.id m.title m.url m.category) := by
  induction ms generalizing i k with
  | nil => simp [printMemes, stdout]
  | cons m ms ih =>
      cases k with
      | zero => simp [printMemes, stdout]
      | succ k =>
          simp only [printMemes, stdout, List.getElem?_cons_succ, ih]
          congr 1; funext m; congr 1; omega

/-- C7: for the list subcommand, when the connection is obtained and the response holds the records memes (any number, zero included), the run ends with status 0, prints exactly one line per record, the line at position k carrying the 1-based index k + 1 and the id, title, url and category of the record at position k, and its trace is nothing but those lines between the acquisition of the connection and the two deferred calls. -/
theorem list_renders_records (env : Env) (f : Flags) (rest : List String) (memes : List Meme)
    (hcmd : f.args = "list" :: rest) (hdial : env.dial f.addr = none)
    (hresp : env.getMemesByCategory f.category = Except.ok memes) :
    (main env f).exit = 0 ∧
    (stdout (main env f).trace).length = memes.length ∧
    (∀ k (hk : k < memes.length), (stdout (main env f).trace)[k]? =
        some (Line.record (k + 1) memes[k].id memes[k].title memes[k].url memes[k].category)) ∧
    (main env f).trace =
      Event.connAcquired :: (stdout (main env f).trace).map Event.out
        ++ [Event.cancel, Event.connClosed] := by
  have hmain : main env f =
      { trace := Event.connAcquired :: printMemes memes 0 ++ [Event.cancel, Event.connClosed],
        exit := 0 } := by
    simp [main, hcmd, hdial, dispatch, hresp]
  rw [hmain]
  have hout : stdout (Event.connAcquired :: printMemes memes 0 ++ [Event.cancel, Event.connClosed])
      = stdout (printMemes memes 0) := by
    simp [stdout, stdout_append]
  refine ⟨rfl, ?_, ?_, ?_⟩
  · simp only [hout, stdout_printMemes_length]
  · intro k hk
    simp only [hout, stdout_printMemes_get, List.getElem?_eq_getElem hk, Option.map_some', Nat.zero_add]
  · simp only [hout]
    rw [← printMemes_eq_map]

/-- Every sequence of receive results is its received records followed by a tail that is empty or starts with an error. -/
theorem received_decompose (s : List (Except Err Meme)) :
    ∃ tail, s = (received s).map Except.ok ++ tail ∧ ∀ m rest, tail ≠ Except.ok m :: rest := by
  induction s with
  | nil => exact ⟨[], by simp [received], by simp⟩
  | cons r rest ih =>
      cases r with
      | error e => exact ⟨Except.error e :: rest, by simp [received], by simp⟩
      | ok m =>
          obtain ⟨tail, h1, h2⟩ := ih
          refine ⟨tail, ?_, h2⟩
          simp only [received, List.map_cons, List.cons_append]
          rw [← h1]

/-- The records received from a sequence whose first error comes after oks are oks. -/
theorem received_append_error (oks : List Meme) (e : Err) (later : List (Except Err Meme)) :
    received (oks.map Except.ok ++ Except.error e :: later) = oks := by
  induction oks with
  | nil => simp [received]
  | cons m ms ih => simp [received, ih]

/-- The receive loop ends with count increased by the number of received records. -/
theorem recvLoop_count (s : List (Except Err Meme)) (c : Nat) :
    (recvLoop s c).2 = c + (received s).length := by
  induction s generalizing c with
  | nil => simp [recvLoop, received]
  | cons r rest ih =>
      cases r with
      | error e => simp [recvLoop, received]
      | ok m => simp only [recvLoop, received, ih, List.length_cons]; omega

/-- The receive loop prints one line per received record. -/
theorem stdout_recvLoop_length (s : List (Except Err Meme)) (c : Nat) :
    (stdout (recvLoop s c).1).length = (received s).length := by
  induction s generalizing c with
  | nil => simp [recvLoop, received, stdout]
  | cons r rest ih =>
      cases r with
      | error e => simp [recvLoop, received, stdout]
      | ok m => simp [recvLoop, received, stdout, ih]

/-- The line at position k of the receive loop started at count c shows received record k with number c + k + 1. -/
theorem stdout_recvLoop_get (s : List (Except Err Meme)) (c k : Nat) :
    (stdout (recvLoop s c).1)[k]? =
      ((received s)[k]?).map (fun m => Line.record (c + k + 1) m.id m.title m.url m.category) := by
  induction s generalizing c k with
  | nil => simp [recvLoop, received, stdout]
  | cons r rest ih =>
      cases r with
      | error e => simp [recvLoop, received, stdout]
      | ok m =>
          cases k with
          | zero => simp [recvLoop, received, stdout]
          | succ k =>
              simp only [recvLoop, received, stdout, List.getElem?_cons_succ, ih]
              congr 1; funext m; congr 1; omega

/-- The receive loop calls Recv once per received record and once more for the error that ends it. -/
theorem recvLoop_recv_count (s : List (Except Err Meme)) (c : Nat) :
    (recvLoop s c).1.count Event.recv = (received s).length + 1 := by
  induction s generalizing c with
  | nil => simp [recvLoop, received]
  | cons r rest ih =>
      cases r with
      | error e => simp [recvLoop, received]
      | ok m => simp [recvLoop, received, ih, List.count_cons]

/-- The receive loop never logs a fatal line. -/
theorem recvLoop_no_fatal (s : List (Except Err Meme)) (c : Nat) (x : Fatal) :
    Event.fatal x ∉ (recvLoop s c).1 := by
  induction s generalizing c with
  | nil => simp [recvLoop]
  | cons r rest ih =>
      cases r with
      | error e => simp [recvLoop]
      | ok m => simp [recvLoop, ih]

/-- The run of the stream subcommand once the connection and the stream are open. -/
theorem main_stream (env : Env) (f : Flags) (rest : List String)
    (script : List (Except Err Meme))
    (hcmd : f.args = "stream" :: rest) (hdial : env.dial f.addr = none)
    (hopen : env.streamMemes f.category = Except.ok script) :
    main env f =
      { trace := Event.connAcquired ::
          ((recvLoop script 0).1 ++ [Event.out (Line.streamDone (received script).length)])
            ++ [Event.cancel, Event.connClosed],
        exit := 0 } := by
  simp [main, hcmd, hdial, dispatch, hopen, recvLoop_count]

/-- The stdout of a stream run: the lines of the loop, then the completion line. -/
theorem stdout_stream_trace (script : List (Except Err Meme)) :
    stdout (Event.connAcquired ::
          ((recvLoop script 0).1 ++ [Event.out (Line.streamDone (received script).length)])
            ++ [Event.cancel, Event.connClosed])
      = stdout (recvLoop script 0).1 ++ [Line.streamDone (received script).length] := by
  simp [stdout, stdout_append]

/-- C1: for the stream subcommand, for every sequence of receive results, with n the number of records received before the first receive error: stdout holds n + 1 lines, the line at position k < n is the record line with index k + 1 and the fields of the k-th received record, the last line is the completion line with count n; the received records are the maximal error-free start of the sequence, so nothing delivered after the first error is printed. -/
theorem stream_prints_received (env : Env) (f : Flags) (rest : List String)
    (script : List (Except Err Meme))
    (hcmd : f.args = "stream" :: rest) (hdial : env.dial f.addr = none)
    (hopen : env.streamMemes f.category = Except.ok script) :
    (stdout (main env f).trace).length = (received script).length + 1 ∧
    (∀ k (hk : k < (received script).length), (stdout (main env f).trace)[k]? =
        some (Line.record (k + 1) (received script)[k].id (received script)[k].title
          (received script)[k].url (received script)[k].category)) ∧
    (stdout (main env f).trace)[(received script).length]? =
        some (Line.streamDone (received script).length) ∧
    (∃ tail, script = (received script).map Except.ok ++ tail ∧
        ∀ m later, tail ≠ Except.ok m :: later) := by
  rw [main_stream env f rest script hcmd hdial hopen]
  simp only [stdout_stream_trace]
  refine ⟨?_, ?_, ?_, received_decompose script⟩
  · simp [stdout_recvLoop_length]
  · intro k hk
    rw [List.getElem?_append_left (by rw [stdout_recvLoop_length]; exact hk)]
    simp only [stdout_recvLoop_get, List.getElem?_eq_getElem hk, Option.map_some', Nat.zero_add]
  · rw [List.getElem?_append_right (by rw [stdout_recvLoop_length])]
    simp [stdout_recvLoop_length]

/-- C2: for the stream subcommand, once the stream is open, a receive error e of any kind after any number of records (zero included) ends consumption (Recv is called once per record and once for the error, never again) and the run finishes with status 0, no fatal line, and the completion line with the count so far as last line, followed only by the deferred calls. -/
theorem stream_error_ends_ok (env : Env) (f : Flags) (rest : List String)
    (script : List (Except Err Meme)) (oks : List Meme) (e : Err)
    (later : List (Except Err Meme))
    (hcmd : f.args = "stream" :: rest) (hdial : env.dial f.addr = none)
    (hopen : env.streamMemes f.category = Except.ok script)
    (hscript : script = oks.map Except.ok ++ Except.error e :: later) :
    (main env f).exit = 0 ∧
    (main env f).trace.count Event.recv = oks.length + 1 ∧
    (∀ x, Event.fatal x ∉ (main env f).trace) ∧
    (stdout (main env f).trace).getLast? = some (Line.streamDone oks.length) ∧
    (∃ pre, (main env f).trace =
        pre ++ [Event.out (Line.streamDone oks.length), Event.cancel, Event.connClosed]) := by
  have hrec : received script = oks := by rw [hscript]; exact received_append_error oks e later
  rw [main_stream env f rest script hcmd hdial hopen, hrec]
  refine ⟨rfl, ?_, ?_, ?_, ?_⟩
  · simp [List.count_cons, List.count_append, recvLoop_recv_count, hrec]
  · intro x
    simp [recvLoop_no_fatal]
  · have := stdout_stream_trace script
    rw [hrec] at this
    rw [this]; simp
  · exact ⟨Event.connAcquired :: (recvLoop script 0).1, by simp⟩

/-- The messages of a trace of Send calls. -/
theorem sends_map_send (us : List Upload) :
    sends (us.map (fun u => Event.send (MemeUpload.mk u.title u.url u.category)))
      = us.map (fun u => MemeUpload.mk u.title u.url u.category) := by
  induction us with
  | nil => rfl
  | cons u us ih => simp [sends, ih]

/-- A trace of Send calls prints nothing. -/
theorem stdout_map_send (us : List Upload) :
    stdout (us.map (fun u => Event.send (MemeUpload.mk u.title u.url u.category))) = [] := by
  induction us with
  | nil => rfl
  | cons u us ih => simp [stdout, ih]

/-- When no Send fails the send loop sends every record of the batch in order. -/
theorem sendLoop_all_ok (env : Env) (batch : List Upload) (k : Nat)
    (hsend : ∀ j (hj : j < batch.length),
      env.send (k + j) (MemeUpload.mk batch[j].title batch[j].url batch[j].category) = none) :
    sendLoop env batch k =
      (batch.map (fun u => Event.send (MemeUpload.mk u.title u.url u.category)), none) := by
  induction batch generalizing k with
  | nil => rfl
  | cons u us ih =>
      have h0 := hsend 0 (by simp)
      simp only [Nat.add_zero, List.getElem_cons_zero] at h0
      have hrest := ih (k + 1) (fun j hj => by
        have := hsend (j + 1) (by simp; omega)
        simpa [Nat.add_assoc, Nat.add_comm 1 j] using this)
      simp [sendLoop, h0, hrest]

/-- When the first failing Send is that of record u, the send loop stops right after it. -/
theorem sendLoop_first_failure (env : Env) (pre : List Upload) (u : Upload) (post : List Upload)
    (e : Err) (k : Nat)
    (hpre : ∀ j (hj : j < pre.length),
      env.send (k + j) (MemeUpload.mk pre[j].title pre[j].url pre[j].category) = none)
    (hfail : env.send (k + pre.length) (MemeUpload.mk u.title u.url u.category) = some e) :
    sendLoop env (pre ++ u :: post) k =
      ((pre ++ [u]).map (fun u => Event.send (MemeUpload.mk u.title u.url u.category)),
        some e) := by
  induction pre generalizing k with
  | nil =>
      simp only [List.length_nil, Nat.add_zero] at hfail
      simp [sendLoop, hfail]
  | cons p ps ih =>
      have h0 := hpre 0 (by simp)
      simp only [Nat.add_zero, List.getElem_cons_zero] at h0
      have hrest := ih (k + 1) (fun j hj => by
        have := hpre (j + 1) (by simp; omega)
        simpa [Nat.add_assoc, Nat.add_comm 1 j] using this)
        (by simpa [Nat.add_assoc, Nat.add_comm 1] using hfail)
      simp [sendLoop, h0, hrest]

/-- The run of the upload subcommand whose first failing Send is that of record u. -/
theorem main_upload_send_failure (env : Env) (f : Flags) (rest : List String)
    (pre : List Upload) (u : Upload) (post : List Upload) (e : Err)
    (hcmd : f.args = "upload" :: rest) (hdial : env.dial f.addr = none)
    (hopen : env.uploadMemes = none)
    (hbuild : buildUploads env f = Except.ok (pre ++ u :: post))
    (hpre : ∀ j (hj : j < pre.length),
      env.send j (MemeUpload.mk pre[j].title pre[j].url pre[j].category) = none)
    (hfail : env.send pre.length (MemeUpload.mk u.title u.url u.category) = some e) :
    main env f =
      { trace := Event.connAcquired ::
          (pre ++ [u]).map (fun u => Event.send (MemeUpload.mk u.title u.url u.category))
            ++ [Event.fatal (Fatal.send e)],
        exit := 1 } := by
  have hloop := sendLoop_first_failure env pre u post e 0
    (by simpa using hpre) (by simpa using hfail)
  simp [main, hcmd, hdial, dispatch, hopen, hbuild, hloop, fatalf]

/-- The run of the upload subcommand when no Send fails, by the answer to CloseAndRecv. -/
theorem main_upload_all_sent (env : Env) (f : Flags) (rest : List String)
    (batch : List Upload)
    (hcmd : f.args = "upload" :: rest) (hdial : env.dial f.addr = none)
    (hopen : env.uploadMemes = none)
    (hbuild : buildUploads env f = Except.ok batch)
    (hsend : ∀ j (hj : j < batch.length),
      env.send j (MemeUpload.mk batch[j].title batch[j].url batch[j].category) = none) :
    main env f =
      match env.closeAndRecv (batch.map (fun u => MemeUpload.mk u.title u.url u.category)) with
      | Except.error e =>
          { trace := Event.connAcquired ::
              batch.map (fun u => Event.send (MemeUpload.mk u.title u.url u.category))
                ++ [Event.closeAndRecv, Event.fatal (Fatal.close e)],
            exit := 1 }
      | Except.ok s =>
          { trace := Event.connAcquired ::
              batch.map (fun u => Event.send (MemeUpload.mk u.title u.url u.category))
                ++ [Event.closeAndRecv, Event.out (Line.uploaded s.count s.message),
                    Event.cancel, Event.connClosed],
            exit := 0 } := by
  have hloop := sendLoop_all_ok env batch 0 (by simpa using hsend)
  simp only [main, hcmd, hdial, dispatch, hopen, hbuild, hloop, fatalf, sends_map_send]
  cases env.closeAndRecv (batch.map (fun u => MemeUpload.mk u.title u.url u.category)) <;> simp

/-- C3: for the upload subcommand, for every batch built (from the file or inline), when no Send fails: the messages sent are exactly those of the batch, one per record, in order, each with the title, url and category of its record unchanged (an empty category stays empty); all of them precede the single CloseAndRecv and none follows it; when a summary comes back the run ends with status 0 and prints the count and message of that summary, so a service that answers with the number of messages it received makes the printed count the batch length. -/
theorem upload_sends_batch (env : Env) (f : Flags) (rest : List String) (batch : List Upload)
    (hcmd : f.args = "upload" :: rest) (hdial : env.dial f.addr = none)
    (hopen : env.uploadMemes = none)
    (hbuild : buildUploads env f = Except.ok batch)
    (hsend : ∀ j (hj : j < batch.length),
      env.send j (MemeUpload.mk batch[j].title batch[j].url batch[j].category) = none) :
    sends (main env f).trace = batch.map (fun u => MemeUpload.mk u.title u.url u.category) ∧
    (∃ tl, (main env f).trace =
        Event.connAcquired ::
          batch.map (fun u => Event.send (MemeUpload.mk u.title u.url u.category))
            ++ Event.closeAndRecv :: tl ∧ sends tl = []) ∧
    (∀ s, env.closeAndRecv (batch.map (fun u => MemeUpload.mk u.title u.url u.category))
          = Except.ok s →
        (main env f).exit = 0 ∧
        stdout (main env f).trace = [Line.uploaded s.count s.message]) ∧
    (∀ msg, env.closeAndRecv (batch.map (fun u => MemeUpload.mk u.title u.url u.category))
          = Except.ok { count := (batch.length : Int), message := msg } →
        stdout (main env f).trace = [Line.uploaded (batch.length : Int) msg]) := by
  have hmain := main_upload_all_sent env f rest batch hcmd hdial hopen hbuild hsend
  have key : ∀ s, env.closeAndRecv (batch.map (fun u => MemeUpload.mk u.title u.url u.category))
        = Except.ok s →
      (main env f).exit = 0 ∧
      stdout (main env f).trace = [Line.uploaded s.count s.message] := by
    intro s hs
    rw [hmain, hs]
    simp [stdout, stdout_append, stdout_map_send]
  refine ⟨?_, ?_, key, fun msg h => (key _ h).2⟩
  · rw [hmain]
    cases env.closeAndRecv (batch.map (fun u => MemeUpload.mk u.title u.url u.category)) <;>
      simp [sends, sends_append, sends_map_send]
  · rw [hmain]
    cases env.closeAndRecv (batch.map (fun u => MemeUpload.mk u.title u.url u.category)) with
    | error e => exact ⟨[Event.fatal (Fatal.close e)], by simp, rfl⟩
    | ok s =>
        exact ⟨[Event.out (Line.uploaded s.count s.message), Event.cancel, Event.connClosed],
          by simp, rfl⟩

/-- C4: for the upload subcommand, for every batch and every position, if the Send of the record at that position fails (those before it having succeeded), the run ends with status 1 right after logging the send error: the records up to that one are the only ones handed to Send, CloseAndRecv is never called and nothing is printed on stdout. -/
theorem upload_send_failure_aborts (env : Env) (f : Flags) (rest : List String)
    (pre : List Upload) (u : Upload) (post : List Upload) (e : Err)
    (hcmd : f.args = "upload" :: rest) (hdial : env.dial f.addr = none)
    (hopen : env.uploadMemes = none)
    (hbuild : buildUploads env f = Except.ok (pre ++ u :: post))
    (hpre : ∀ j (hj : j < pre.length),
      env.send j (MemeUpload.mk pre[j].title pre[j].url pre[j].category) = none)
    (hfail : env.send pre.length (MemeUpload.mk u.title u.url u.category) = some e) :
    (main env f).exit = 1 ∧
    (main env f).trace =
      Event.connAcquired ::
        (pre ++ [u]).map (fun u => Event.send (MemeUpload.mk u.title u.url u.category))
          ++ [Event.fatal (Fatal.send e)] ∧
    sends (main env f).trace
      = (pre ++ [u]).map (fun u => MemeUpload.mk u.title u.url u.category) ∧
    Event.closeAndRecv ∉ (main env f).trace ∧
    stdout (main env f).trace = [] := by
  rw [main_upload_send_failure env f rest pre u post e hcmd hdial hopen hbuild hpre hfail]
  refine ⟨rfl, rfl, ?_, ?_, ?_⟩
  · simp [sends, sends_append, sends_map_send]
  · simp
  · simp [stdout, stdout_append, stdout_map_send]

/-- C5: with no -file, the batch build fails with the usage text and the fatal line whenever the title or the url is empty, whatever the category; when both are non-empty it yields exactly one record with that title, url and category (an empty category is stored as the empty string); and when the build fails in a run whose connection and stream are open, the run ends with status 1 and nothing is sent. -/
theorem inline_source_build (env : Env) (f : Flags) (hfile : f.file = "") :
    ((f.title = "" ∨ f.url = "") →
      buildUploads env f = Except.error [Event.usage, Event.fatal Fatal.uploadRequires]) ∧
    (f.title ≠ "" → f.url ≠ "" →
      buildUploads env f
        = Except.ok [{ title := f.title, url := f.url, category := f.category }]) ∧
    (∀ rest, f.args = "upload" :: rest → env.dial f.addr = none → env.uploadMemes = none →
      (f.title = "" ∨ f.url = "") →
      (main env f).exit = 1 ∧ sends (main env f).trace = [] ∧
      Event.fatal Fatal.uploadRequires ∈ (main env f).trace) := by
  have hfail : (f.title = "" ∨ f.url = "") →
      buildUploads env f = Except.error [Event.usage, Event.fatal Fatal.uploadRequires] := by
    intro h
    have : ¬ (f.title ≠ "" ∧ f.url ≠ "") := by
      rintro ⟨h1, h2⟩; rcases h with h | h <;> contradiction
    simp only [buildUploads, hfile, ne_eq, not_true_eq_false, if_false, this]
  refine ⟨hfail, ?_, ?_⟩
  · intro h1 h2
    simp [buildUploads, hfile, h1, h2]
  · intro rest hcmd hdial hopen h
    simp [main, hcmd, hdial, dispatch, hopen, hfail h, sends]

/-- The trace of the send loop is the Send calls of some initial part of the batch. -/
theorem sendLoop_trace (env : Env) (batch : List Upload) (k : Nat) :
    ∃ n, (sendLoop env batch k).1 =
      (batch.take n).map (fun u => Event.send (MemeUpload.mk u.title u.url u.category)) := by
  induction batch generalizing k with
  | nil => exact ⟨0, rfl⟩
  | cons u us ih =>
      cases h : env.send k (MemeUpload.mk u.title u.url u.category) with
      | some e => exact ⟨1, by simp [sendLoop, h]⟩
      | none =>
          obtain ⟨n, hn⟩ := ih (k + 1)
          exact ⟨n + 1, by simp [sendLoop, h, hn]⟩

/-- The send loop prints nothing. -/
theorem stdout_sendLoop (env : Env) (batch : List Upload) (k : Nat) :
    stdout (sendLoop env batch k).1 = [] := by
  obtain ⟨n, hn⟩ := sendLoop_trace env batch k
  rw [hn]; exact stdout_map_send _

/-- The send loop never prints the usage text. -/
theorem usage_not_mem_sendLoop (env : Env) (batch : List Upload) (k : Nat) :
    Event.usage ∉ (sendLoop env batch k).1 := by
  obtain ⟨n, hn⟩ := sendLoop_trace env batch k
  rw [hn]
  intro h
  obtain ⟨u, _, hu⟩ := List.mem_map.mp h
  cases hu

/-- With a -file the batch build only looks at the file. -/
theorem buildUploads_file (env : Env) (f : Flags) (hfile : f.file ≠ "") :
    buildUploads env f =
      match env.readFile f.file with
      | Except.error e => Except.error [Event.fatal (Fatal.readFile e)]
      | Except.ok data =>
          match env.unmarshal data with
          | Except.error e => Except.error [Event.fatal (Fatal.parseJson e)]
          | Except.ok toUpload => Except.ok toUpload := by
  simp [buildUploads, hfile]

/-- C6 (amended): for the upload subcommand, once the connection and the stream are open: with no -file and an empty title or url the run prints the usage text, logs the fatal line, ends with status 1 and sends nothing; with a -file the batch is the decoded file whatever -title and -url hold, and the usage text is never printed. -/
theorem upload_source_selection (env : Env) (f : Flags) (rest : List String)
    (hcmd : f.args = "upload" :: rest) (hdial : env.dial f.addr = none)
    (hopen : env.uploadMemes = none) :
    (f.file = "" → (f.title = "" ∨ f.url = "") →
      main env f =
        { trace := [Event.connAcquired, Event.usage, Event.fatal Fatal.uploadRequires],
          exit := 1 }) ∧
    (f.file ≠ "" → ∀ data batch, env.readFile f.file = Except.ok data →
      env.unmarshal data = Except.ok batch → buildUploads env f = Except.ok batch) ∧
    (f.file ≠ "" → Event.usage ∉ (main env f).trace) := by
  refine ⟨?_, ?_, ?_⟩
  · intro hfile h
    have : ¬ (f.title ≠ "" ∧ f.url ≠ "") := by
      rintro ⟨h1, h2⟩; rcases h with h | h <;> contradiction
    have hb : buildUploads env f
        = Except.error [Event.usage, Event.fatal Fatal.uploadRequires] := by
      simp only [buildUploads, hfile, ne_eq, not_true_eq_false, if_false, this]
    simp [main, hcmd, hdial, dispatch, hopen, hb]
  · intro hfile data batch hread hparse
    rw [buildUploads_file env f hfile, hread]
    simp only [hparse]
  · intro hfile
    simp only [main, hcmd, hdial, dispatch, hopen, buildUploads_file env f hfile]
    cases hf : env.readFile f.file with
    | error e => simp [fatalf]
    | ok data =>
        cases hp : env.unmarshal data with
        | error e => simp [fatalf, hp]
        | ok batch =>
            have hu := usage_not_mem_sendLoop env batch 0
            cases hr : (sendLoop env batch 0).2 with
            | some e => simp [fatalf, hp, hr, hu]
            | none =>
                cases hc : env.closeAndRecv (sends (sendLoop env batch 0).1) with
                | error e => simp [fatalf, hp, hr, hc, hu]
                | ok s => simp [fatalf, hp, hr, hc, hu]

/-- C8 (amended): on a run that ends with status 0, the stream subcommand prints the completion line with the number of received records as its last line, the upload subcommand prints the summary line of the returned summary as its only line, and the list subcommand prints one record line per record of the response and no other line. -/
theorem final_line_on_success (env : Env) (f : Flags) (rest : List String)
    (hexit : (main env f).exit = 0) :
    (f.args = "stream" :: rest →
      ∃ script, env.streamMemes f.category = Except.ok script ∧
        (stdout (main env f).trace).getLast? = some (Line.streamDone (received script).length)) ∧
    (f.args = "upload" :: rest →
      ∃ s, env.closeAndRecv (sends (main env f).trace) = Except.ok s ∧
        stdout (main env f).trace = [Line.uploaded s.count s.message]) ∧
    (f.args = "list" :: rest →
      ∃ memes, env.getMemesByCategory f.category = Except.ok memes ∧
        (stdout (main env f).trace).length = memes.length ∧
        ∀ l ∈ stdout (main env f).trace, ∃ i id title url category,
          l = Line.record i id title url category) := by
  refine ⟨?_, ?_, ?_⟩
  · intro hcmd
    cases hd : env.dial f.addr with
    | some e => simp [main, hcmd, hd] at hexit
    | none =>
        cases ho : env.streamMemes f.category with
        | error e => simp [main, hcmd, hd, dispatch, ho, fatalf] at hexit
        | ok script =>
            refine ⟨script, rfl, ?_⟩
            rw [main_stream env f rest script hcmd hd ho, stdout_stream_trace]
            simp
  · intro hcmd
    cases hd : env.dial f.addr with
    | some e => simp [main, hcmd, hd] at hexit
    | none =>
        cases ho : env.uploadMemes with
        | some e => simp [main, hcmd, hd, dispatch, ho, fatalf] at hexit
        | none =>
            cases hb : buildUploads env f with
            | error tr => simp [main, hcmd, hd, dispatch, ho, hb] at hexit
            | ok batch =>
                cases hr : (sendLoop env batch 0).2 with
                | some e => simp [main, hcmd, hd, dispatch, ho, hb, hr] at hexit
                | none =>
                    cases hc : env.closeAndRecv (sends (sendLoop env batch 0).1) with
                    | error e => simp [main, hcmd, hd, dispatch, ho, hb, hr, hc] at hexit
                    | ok s =>
                        refine ⟨s, ?_, ?_⟩
                        · simp [main, hcmd, hd, dispatch, ho, hb, hr, hc, sends, sends_append]
                        · simp [main, hcmd, hd, dispatch, ho, hb, hr, hc, stdout, stdout_append,
                            stdout_sendLoop]
  · intro hcmd
    cases hd : env.dial f.addr with
    | some e => simp [main, hcmd, hd] at hexit
    | none =>
        cases ho : env.getMemesByCategory f.category with
        | error e => simp [main, hcmd, hd, dispatch, ho, fatalf] at hexit
        | ok memes =>
            have hout : stdout (main env f).trace = stdout (printMemes memes 0) := by
              simp [main, hcmd, hd, dispatch, ho, stdout, stdout_append]
            refine ⟨memes, rfl, ?_, ?_⟩
            · rw [hout, stdout_printMemes_length]
            · intro l hl
              rw [hout] at hl
              obtain ⟨k, hk, rfl⟩ := List.getElem_of_mem hl
              have hk2 : k < memes.length := by
                rw [stdout_printMemes_length] at hk; exact hk
              have hget := stdout_printMemes_get memes 0 k
              rw [List.getElem?_eq_getElem hk, List.getElem?_eq_getElem hk2] at hget
              simp only [Option.map_some', Option.some.injEq] at hget
              exact ⟨_, _, _, _, _, hget⟩

/-- The list loop does not close the connection. -/
theorem connClosed_not_mem_printMemes (ms : List Meme) (i : Nat) :
    Event.connClosed ∉ printMemes ms i := by
  induction ms generalizing i with
  | nil => simp [printMemes]
  | cons m ms ih => simp [printMemes, ih]

/-- The receive loop does not close the connection. -/
theorem connClosed_not_mem_recvLoop (s : List (Except Err Meme)) (c : Nat) :
    Event.connClosed ∉ (recvLoop s c).1 := by
  induction s generalizing c with
  | nil => simp [recvLoop]
  | cons r rest ih =>
      cases r with
      | error e => simp [recvLoop]
      | ok m => simp [recvLoop, ih]

/-- The send loop does not close the connection. -/
theorem connClosed_not_mem_sendLoop (env : Env) (batch : List Upload) (k : Nat) :
    Event.connClosed ∉ (sendLoop env batch k).1 := by
  obtain ⟨n, hn⟩ := sendLoop_trace env batch k
  rw [hn]
  intro h
  obtain ⟨u, _, hu⟩ := List.mem_map.mp h
  cases hu

/-- A failing batch build does not close the connection. -/
theorem connClosed_not_mem_buildUploads (env : Env) (f : Flags) (tr : List Event)
    (h : buildUploads env f = Except.error tr) : Event.connClosed ∉ tr := by
  unfold buildUploads at h
  split at h
  · cases hf : env.readFile f.file with
    | error e => simp [hf] at h; subst h; simp
    | ok data =>
        cases hp : env.unmarshal data with
        | error e => simp [hf, hp] at h; subst h; simp
        | ok b => simp [hf, hp] at h
  · split at h
    · simp at h
    · simp at h; subst h; simp

/-- No subcommand closes the connection by itself. -/
theorem connClosed_not_mem_dispatch (env : Env) (f : Flags) (cmd : String) :
    Event.connClosed ∉ (dispatch env f cmd).1 := by
  unfold dispatch
  split
  · cases env.getRandomMeme f.category <;> simp [fatalf]
  · split
    · cases env.getMemesByCategory f.category <;>
        simp [fatalf, connClosed_not_mem_printMemes]
    · split
      · cases env.streamMemes f.category <;> simp [fatalf, connClosed_not_mem_recvLoop]
      · split
        · cases env.uploadMemes with
          | some e => simp [fatalf]
          | none =>
              cases hb : buildUploads env f with
              | error tr => simpa using connClosed_not_mem_buildUploads env f tr hb
              | ok batch =>
                  have hs := connClosed_not_mem_sendLoop env batch 0
                  cases hr : (sendLoop env batch 0).2 with
                  | some e => simp [fatalf, hr, hs]
                  | none =>
                      cases hc : env.closeAndRecv (sends (sendLoop env batch 0).1) <;>
                        simp [fatalf, hr, hc, hs]
        · simp

/-- On every run that ends with a non-zero status the deferred conn.Close() has not run. -/
theorem failing_run_never_closes (env : Env) (f : Flags) (hexit : (main env f).exit ≠ 0) :
    Event.connClosed ∉ (main env f).trace := by
  unfold main at hexit ⊢
  cases hargs : f.args with
  | nil => simp
  | cons cmd rest =>
      cases hdial : env.dial f.addr with
      | some e => simp [fatalf]
      | none =>
          have hd := connClosed_not_mem_dispatch env f cmd
          rcases hdis : dispatch env f cmd with ⟨tr, ending⟩
          rw [hdis] at hd
          cases ending with
          | returned => simp [hargs, hdial, hdis] at hexit
          | exited code => simpa [hdis] using hd

/-- C10 (amended): when the connection is obtained and the pending RPC step returns the deadline error, the run logs that error in a fatal line and ends with status 1 if the step is the unary call of random or list, the opening of the stream, the opening of the upload, a Send, or CloseAndRecv; if the step is a Recv of the stream subcommand the run instead ends with status 0, logs no fatal line and prints the completion line with the count so far. -/
theorem deadline_outcomes (env : Env) (f : Flags) (rest : List String)
    (hdial : env.dial f.addr = none) :
    (f.args = "random" :: rest →
      env.getRandomMeme f.category = Except.error Err.deadlineExceeded →
      main env f =
        { trace := [Event.connAcquired, Event.fatal (Fatal.getRandomMeme Err.deadlineExceeded)],
          exit := 1 }) ∧
    (f.args = "list" :: rest →
      env.getMemesByCategory f.category = Except.error Err.deadlineExceeded →
      main env f =
        { trace := [Event.connAcquired,
            Event.fatal (Fatal.getMemesByCategory Err.deadlineExceeded)],
          exit := 1 }) ∧
    (f.args = "stream" :: rest →
      env.streamMemes f.category = Except.error Err.deadlineExceeded →
      main env f =
        { trace := [Event.connAcquired, Event.fatal (Fatal.streamMemes Err.deadlineExceeded)],
          exit := 1 }) ∧
    (f.args = "upload" :: rest →
      env.uploadMemes = some Err.deadlineExceeded →
      main env f =
        { trace := [Event.connAcquired, Event.fatal (Fatal.uploadOpen Err.deadlineExceeded)],
          exit := 1 }) ∧
    (f.args = "upload" :: rest → env.uploadMemes = none →
      ∀ (pre : List Upload) (u : Upload) (post : List Upload), buildUploads env f = Except.ok (pre ++ u :: post) →
      (∀ j (hj : j < pre.length),
        env.send j (MemeUpload.mk pre[j].title pre[j].url pre[j].category) = none) →
      env.send pre.length (MemeUpload.mk u.title u.url u.category)
        = some Err.deadlineExceeded →
      main env f =
        { trace := Event.connAcquired ::
            (pre ++ [u]).map (fun u => Event.send (MemeUpload.mk u.title u.url u.category))
              ++ [Event.fatal (Fatal.send Err.deadlineExceeded)],
          exit := 1 }) ∧
    (f.args = "upload" :: rest → env.uploadMemes = none →
      ∀ (batch : List Upload), buildUploads env f = Except.ok batch →
      (∀ j (hj : j < batch.length),
        env.send j (MemeUpload.mk batch[j].title batch[j].url batch[j].category) = none) →
      env.closeAndRecv (batch.map (fun u => MemeUpload.mk u.title u.url u.category))
        = Except.error Err.deadlineExceeded →
      main env f =
        { trace := Event.connAcquired ::
            batch.map (fun u => Event.send (MemeUpload.mk u.title u.url u.category))
              ++ [Event.closeAndRecv, Event.fatal (Fatal.close Err.deadlineExceeded)],
          exit := 1 }) ∧
    (f.args = "stream" :: rest →
      ∀ (oks : List Meme) (later : List (Except Err Meme)), env.streamMemes f.category
          = Except.ok (oks.map Except.ok ++ Except.error Err.deadlineExceeded :: later) →
      (main env f).exit = 0 ∧
      (stdout (main env f).trace).getLast? = some (Line.streamDone oks.length) ∧
      ∀ x, Event.fatal x ∉ (main env f).trace) := by
  refine ⟨?_, ?_, ?_, ?_, ?_, ?_, ?_⟩
  · intro hcmd h
    simp [main, hcmd, hdial, dispatch, h, fatalf]
  · intro hcmd h
    simp [main, hcmd, hdial, dispatch, h, fatalf]
  · intro hcmd h
    simp [main, hcmd, hdial, dispatch, h, fatalf]
  · intro hcmd h
    simp [main, hcmd, hdial, dispatch, h, fatalf]
  · intro hcmd hopen pre u post hbuild hpre hfail
    exact main_upload_send_failure env f rest pre u post _ hcmd hdial hopen hbuild hpre hfail
  · intro hcmd hopen batch hbuild hsend hclose
    rw [main_upload_all_sent env f rest batch hcmd hdial hopen hbuild hsend, hclose]
  · intro hcmd oks later hopen
    have hrec := received_append_error oks Err.deadlineExceeded later
    rw [main_stream env f rest _ hcmd hdial hopen, hrec]
    refine ⟨rfl, ?_, ?_⟩
    · have := stdout_stream_trace
        (oks.map Except.ok ++ Except.error Err.deadlineExceeded :: later)
      rw [hrec] at this
      rw [this]; simp
    · intro x
      simp [recvLoop_no_fatal]

/-! ## Concrete runs -/

/-- C1 at a stream of two records ended by a clean end of stream. -/
theorem stream_prints_received_witness :
    (stdout (main okEnv (flagsFor "stream")).trace).length = 2 + 1 ∧
    (stdout (main okEnv (flagsFor "stream")).trace)[1]? =
      some (Line.record 2 "2" "Y" "http://b" "funny") ∧
    (stdout (main okEnv (flagsFor "stream")).trace)[2]? = some (Line.streamDone 2) :=
  have h := stream_prints_received okEnv (flagsFor "stream") []
    (sampleMemes.map Except.ok ++ [Except.error Err.eof]) rfl rfl rfl
  ⟨h.1, h.2.1 1 (by decide), h.2.2.1⟩

/-- C2 at a stream that delivers one record and then the deadline error. -/
theorem stream_error_ends_ok_witness :
    (main stalledStreamEnv (flagsFor "stream")).exit = 0 ∧
    (main stalledStreamEnv (flagsFor "stream")).trace.count Event.recv = 1 + 1 ∧
    (stdout (main stalledStreamEnv (flagsFor "stream")).trace).getLast?
      = some (Line.streamDone 1) :=
  have h := stream_error_ends_ok stalledStreamEnv (flagsFor "stream") [] _
    [{ id := "1", title := "X", url := "http://a", category := "funny" }]
    Err.deadlineExceeded
    [Except.ok { id := "2", title := "Y", url := "http://b", category := "funny" }]
    rfl rfl rfl rfl
  ⟨h.1, h.2.1, h.2.2.2.1⟩

/-- C3 at the two-record batch file and a service that acknowledges what it received. -/
theorem upload_sends_batch_witness :
    sends (main okEnv fileFlags).trace =
      [{ title := "a", url := "u1", category := "c" },
       { title := "b", url := "u2", category := "" }] ∧
    (main okEnv fileFlags).exit = 0 ∧
    stdout (main okEnv fileFlags).trace = [Line.uploaded 2 "ok"] :=
  have h := upload_sends_batch okEnv fileFlags [] sampleBatch rfl rfl rfl rfl
    (fun _ _ => rfl)
  ⟨h.1, (h.2.2.1 { count := 2, message := "ok" } rfl).1, h.2.2.2 "ok" rfl⟩

/-- C4 at the two-record batch file when the second Send fails. -/
theorem upload_send_failure_aborts_witness :
    (main (sendFailEnv 1 (Err.other "transport is closing")) fileFlags).exit = 1 ∧
    (main (sendFailEnv 1 (Err.other "transport is closing")) fileFlags).trace =
      [Event.connAcquired,
       Event.send { title := "a", url := "u1", category := "c" },
       Event.send { title := "b", url := "u2", category := "" },
       Event.fatal (Fatal.send (Err.other "transport is closing"))] :=
  have h := upload_send_failure_aborts (sendFailEnv 1 (Err.other "transport is closing"))
    fileFlags [] [{ title := "a", url := "u1", category := "c" }]
    { title := "b", url := "u2", category := "" } [] (Err.other "transport is closing")
    rfl rfl rfl rfl
    (fun j hj => by
      have hj0 : j = 0 := by simpa using hj
      subst hj0; rfl)
    rfl
  ⟨h.1, h.2.1⟩

/-- C5 at the command lines without any source and with title and url only. -/
theorem inline_source_build_witness :
    buildUploads okEnv (flagsFor "upload")
      = Except.error [Event.usage, Event.fatal Fatal.uploadRequires] ∧
    buildUploads okEnv inlineFlags = Except.ok [{ title := "t", url := "u", category := "" }] ∧
    (main okEnv (flagsFor "upload")).exit = 1 :=
  ⟨(inline_source_build okEnv (flagsFor "upload") rfl).1 (Or.inl rfl),
   (inline_source_build okEnv inlineFlags rfl).2.1 (by decide) (by decide),
   ((inline_source_build okEnv (flagsFor "upload") rfl).2.2 [] rfl rfl rfl (Or.inl rfl)).1⟩

/-- C7 at the two-record list scenario. -/
theorem list_renders_records_witness :
    (main okEnv (flagsFor "list")).exit = 0 ∧
    (stdout (main okEnv (flagsFor "list")).trace).length = 2 ∧
    (stdout (main okEnv (flagsFor "list")).trace)[0]? =
      some (Line.record 1 "1" "X" "http://a" "funny") ∧
    (stdout (main okEnv (flagsFor "list")).trace)[1]? =
      some (Line.record 2 "2" "Y" "http://b" "funny") :=
  have h := list_renders_records okEnv (flagsFor "list") [] sampleMemes rfl rfl rfl
  ⟨h.1, h.2.1, h.2.2.1 0 (by decide), h.2.2.1 1 (by decide)⟩

/-- C6 as stated fails: with -file, -title and -url all given, the run uploads the file and ends with status 0; no usage text is printed. -/
theorem file_with_inline_is_accepted :
    (main okEnv bothSourcesFlags).exit = 0 ∧
    (main okEnv bothSourcesFlags).trace =
      [Event.connAcquired,
       Event.send { title := "a", url := "u1", category := "c" },
       Event.send { title := "b", url := "u2", category := "" },
       Event.closeAndRecv,
       Event.out (Line.uploaded 2 "ok"),
       Event.cancel, Event.connClosed] := by
  decide

/-- C6 (amended) at the command lines without any source and with both sources. -/
theorem upload_source_selection_witness :
    main okEnv (flagsFor "upload") =
      { trace := [Event.connAcquired, Event.usage, Event.fatal Fatal.uploadRequires],
        exit := 1 } ∧
    buildUploads okEnv bothSourcesFlags = Except.ok sampleBatch ∧
    Event.usage ∉ (main okEnv bothSourcesFlags).trace :=
  ⟨(upload_source_selection okEnv (flagsFor "upload") [] rfl rfl rfl).1 rfl (Or.inl rfl),
   (upload_source_selection okEnv bothSourcesFlags [] rfl rfl rfl).2.1 (by decide)
      "batch" sampleBatch rfl rfl,
   (upload_source_selection okEnv bothSourcesFlags [] rfl rfl rfl).2.2 (by decide)⟩

/-- C8 as stated fails for list: a successful list run of two records prints the two record lines and nothing after them, and a successful list run of an empty response prints nothing. -/
theorem list_has_no_total_line :
    (main okEnv (flagsFor "list")).exit = 0 ∧
    stdout (main okEnv (flagsFor "list")).trace =
      [Line.record 1 "1" "X" "http://a" "funny", Line.record 2 "2" "Y" "http://b" "funny"] ∧
    (main { okEnv with getMemesByCategory := fun _ => Except.ok [] } (flagsFor "list")).exit = 0 ∧
    stdout (main { okEnv with getMemesByCategory := fun _ => Except.ok [] }
      (flagsFor "list")).trace = [] := by
  decide

/-- C8 (amended) at a successful stream run, a successful upload run and a successful list run. -/
theorem final_line_on_success_witness :
    (∃ script, okEnv.streamMemes (flagsFor "stream").category = Except.ok script ∧
      (stdout (main okEnv (flagsFor "stream")).trace).getLast?
        = some (Line.streamDone (received script).length)) ∧
    (∃ s, okEnv.closeAndRecv (sends (main okEnv fileFlags).trace) = Except.ok s ∧
      stdout (main okEnv fileFlags).trace = [Line.uploaded s.count s.message]) ∧
    (∃ memes, okEnv.getMemesByCategory (flagsFor "list").category = Except.ok memes ∧
      (stdout (main okEnv (flagsFor "list")).trace).length = memes.length ∧
      ∀ l ∈ stdout (main okEnv (flagsFor "list")).trace, ∃ i id title url category,
        l = Line.record i id title url category) :=
  ⟨(final_line_on_success okEnv (flagsFor "stream") [] (by decide)).1 rfl,
   (final_line_on_success okEnv fileFlags [] (by decide)).2.1 rfl,
   (final_line_on_success okEnv (flagsFor "list") [] (by decide)).2.2 rfl⟩

/-- C9 fails on the code: when GetRandomMeme returns an error the run acquires the connection, logs the fatal line and ends with status 1 without conn.Close() having run; likewise for an unknown subcommand, which ends with status 2. -/
theorem fatal_exit_skips_conn_close :
    main (failingEnv (Err.other "no memes found")) (flagsFor "random") =
      { trace := [Event.connAcquired,
          Event.fatal (Fatal.getRandomMeme (Err.other "no memes found"))],
        exit := 1 } ∧
    (main (failingEnv (Err.other "no memes found")) (flagsFor "random")).trace.count
      Event.connClosed = 0 ∧
    main okEnv (flagsFor "bogus") =
      { trace := [Event.connAcquired, Event.usage], exit := 2 } := by
  decide

/-- C10 as stated fails for stream: when the second Recv returns the deadline error the run prints the completion line and ends with status 0. -/
theorem stream_recv_deadline_is_success :
    main stalledStreamEnv (flagsFor "stream") =
      { trace := [Event.connAcquired,
          Event.recv, Event.out (Line.record 1 "1" "X" "http://a" "funny"),
          Event.recv, Event.out (Line.streamDone 1),
          Event.cancel, Event.connClosed],
        exit := 0 } := by
  decide

/-- C10 (amended) at a service that times out at each of the seven steps in turn. -/
theorem deadline_outcomes_witness :
    (main (failingEnv Err.deadlineExceeded) (flagsFor "random")).exit = 1 ∧
    (main (failingEnv Err.deadlineExceeded) (flagsFor "list")).exit = 1 ∧
    (main (failingEnv Err.deadlineExceeded) (flagsFor "stream")).exit = 1 ∧
    (main (failingEnv Err.deadlineExceeded) (flagsFor "upload")).exit = 1 ∧
    (main (sendFailEnv 0 Err.deadlineExceeded) fileFlags).exit = 1 ∧
    (main (closeFailEnv Err.deadlineExceeded) fileFlags).exit = 1 ∧
    (main stalledStreamEnv (flagsFor "stream")).exit = 0 :=
  ⟨congrArg Run.exit
      ((deadline_outcomes (failingEnv Err.deadlineExceeded) (flagsFor "random") [] rfl).1
        rfl rfl),
   congrArg Run.exit
      ((deadline_outcomes (failingEnv Err.deadlineExceeded) (flagsFor "list") [] rfl).2.1
        rfl rfl),
   congrArg Run.exit
      ((deadline_outcomes (failingEnv Err.deadlineExceeded) (flagsFor "stream") [] rfl).2.2.1
        rfl rfl),
   congrArg Run.exit
      ((deadline_outcomes (failingEnv Err.deadlineExceeded) (flagsFor "upload") [] rfl).2.2.2.1
        rfl rfl),
   congrArg Run.exit
      ((deadline_outcomes (sendFailEnv 0 Err.deadlineExceeded) fileFlags [] rfl).2.2.2.2.1
        rfl rfl [] { title := "a", url := "u1", category := "c" }
        [{ title := "b", url := "u2", category := "" }] rfl
        (fun j hj => absurd hj (Nat.not_lt_zero j)) rfl),
   congrArg Run.exit
      ((deadline_outcomes (closeFailEnv Err.deadlineExceeded) fileFlags [] rfl).2.2.2.2.2.1
        rfl rfl sampleBatch rfl (fun _ _ => rfl) rfl),
   ((deadline_outcomes stalledStreamEnv (flagsFor "stream") [] rfl).2.2.2.2.2.2 rfl
      [{ id := "1", title := "X", url := "http://a", category := "funny" }]
      [Except.ok { id := "2", title := "Y", url := "http://b", category := "funny" }] rfl).1⟩

end MemeClient
